import Mathlib

/-!
Shallow embedding of the tftpd TFTP server engine.

The definitions below are translated from the C++ sources:
  - src/src/tftp.cpp          (insert_data, send_next, handle_request,
                               handle_ack, handle_data)
  - src/src/tftp_server.cpp   (the retransmission-timer callback in
                               server::send_next)
  - src/src/filesystem.cpp    (tmpname, count)

Bytes are modelled as natural numbers below 256; machine integers wrap with
an explicit modulus (2 ^ 16 for uint16_t block numbers and the temp-file
counter, 2 ^ 64 for size_t).  File streams are modelled by the list of bytes
still unread (reads past the end return what is left, as an istream read
that hits EOF does), and by the list of bytes written so far on the write
side.  The staging helper filesystem::tmpfile_from is not part of the
sources; where handle_request consumes its outcome, the outcome is an
explicit oracle argument.
-/

namespace TftpSpec

/-- Maximum DATA payload size in bytes (tftp_protocol.hpp, DATALEN). -/
def DATALEN : Nat := 512

/-- Maximum total size of a DATA message, header plus payload
(tftp_protocol.hpp, DATAMSG_MAXLEN = sizeof(messages::data) + DATALEN). -/
def DATAMSG_MAXLEN : Nat := 4 + DATALEN

/-- Opcode RRQ = 1 (tftp_protocol.hpp, opcode_t). -/
def RRQ : Nat := 1

/-- Opcode WRQ = 2. -/
def WRQ : Nat := 2

/-- Opcode DATA = 3. -/
def DATA : Nat := 3

/-- Opcode ACK = 4. -/
def ACK : Nat := 4

/-- Opcode ERROR = 5. -/
def ERROR : Nat := 5

/-- Mode NETASCII = 1 (tftp_protocol.hpp, mode_t). -/
def NETASCII : Nat := 1

/-- Mode OCTET = 2. -/
def OCTET : Nat := 2

/-- Mode MAIL = 3. -/
def MAIL : Nat := 3

/-- Error code FILE_NOT_FOUND = 1 (tftp_protocol.hpp, error_t). -/
def FILE_NOT_FOUND : Nat := 1

/-- Error code ACCESS_VIOLATION = 2. -/
def ACCESS_VIOLATION : Nat := 2

/-- Error code DISK_FULL = 3. -/
def DISK_FULL : Nat := 3

/-- Error code ILLEGAL_OPERATION = 4. -/
def ILLEGAL_OPERATION : Nat := 4

/-- Error code UNKNOWN_TID = 5. -/
def UNKNOWN_TID : Nat := 5

/-- Error code NO_SUCH_USER = 7. -/
def NO_SUCH_USER : Nat := 7

/-- One iteration of the NETASCII loop body of insert_data
(tftp.cpp lines 55-82), acting on the whole session buffer (the 4-byte DATA
header followed by the emitted bytes).  A bare 0 byte is skipped; for a
line feed, if the buffer holds more than the 4 header bytes and its last
byte is 0 (necessarily from an earlier carriage-return escape) that 0 is
popped, otherwise a carriage return is pushed first; every byte except a
skipped 0 is then appended, and a carriage return is followed by a 0. -/
def insChar (buffer : List Nat) (c : Nat) : List Nat :=
  if c = 0 then buffer
  else if c = 10 then
    (if 4 < buffer.length ∧ buffer.getLast? = some 0 then
      buffer.dropLast ++ [10]
    else
      buffer ++ [13, 10])
  else if c = 13 then buffer ++ [13, 0]
  else buffer ++ [c]

/-- insert_data (tftp.cpp lines 42-83): append buf to buffer, converting
line endings when the mode is NETASCII and verbatim otherwise. -/
def insert_data (buffer : List Nat) (buf : List Nat) (mode : Nat) : List Nat :=
  if mode ≠ NETASCII then buffer ++ buf else buf.foldl insChar buffer

/-- Per-session read-transfer state (tftp_session.hpp state_t restricted to
the fields the engine reads: buffer, block_num, opc, mode, and the file
stream, modelled as its unread bytes plus an open flag). -/
structure State where
  buffer : List Nat := []
  block_num : Nat := 0
  fileRem : List Nat := []
  mode : Nat := 0
  opc : Nat := 0
  fileOpen : Bool := true
deriving Repr, DecidableEq

/-- The four header bytes send_next writes at the front of the buffer:
opcode DATA and the block number, both big-endian (htons). -/
def mkHeader (block : Nat) : List Nat :=
  [0, DATA, block / 256 % 256, block % 256]

/-- send_next (tftp.cpp lines 109-147): increment the block number with
uint16_t wrap-around, make the buffer at least 4 bytes long, move any
overflow bytes beyond offset 4 + 512 down to offset 4 and truncate there,
write the DATA header, then read DATAMSG_MAXLEN - buffer.size() bytes from
the file and append them through insert_data. -/
def send_next (st : State) : State :=
  let block := (st.block_num + 1) % 2 ^ 16
  let buf0 :=
    if st.buffer.length < 4 then
      st.buffer ++ List.replicate (4 - st.buffer.length) 0
    else st.buffer
  let carry := if DATAMSG_MAXLEN < buf0.length then buf0.drop DATAMSG_MAXLEN else []
  let base := mkHeader block ++ carry
  let readSize := DATAMSG_MAXLEN - base.length
  { st with
    buffer := insert_data base (st.fileRem.take readSize) st.mode
    block_num := block
    fileRem := st.fileRem.drop readSize }

/-- The datagram the driver sends after send_next: the first
min(buffer.size(), DATAMSG_MAXLEN) bytes of the buffer
(tftp_server.cpp, server::send). -/
def sentPacket (st : State) : List Nat := st.buffer.take DATAMSG_MAXLEN

/-- The DATA payload of the sent datagram: the sent bytes minus the 4-byte
header. -/
def payload (st : State) : List Nat := (sentPacket st).drop 4

/-- A fresh session that has just accepted a read request: empty buffer,
block 0, the source file unread. -/
def initState (b : List Nat) (m : Nat) : State :=
  { buffer := [], block_num := 0, fileRem := b, mode := m, opc := RRQ,
    fileOpen := true }

/-- The driver loop of a read transfer: call send_next, emit the payload,
and continue while each payload fills all DATALEN bytes (a shorter payload
ends the transfer).  Fuel bounds the number of DATA packets. -/
def rrqRun (st : State) : Nat → List (List Nat)
  | 0 => []
  | fuel + 1 =>
    let st1 := send_next st
    if (payload st1).length < DATALEN then [payload st1]
    else payload st1 :: rrqRun st1 fuel

/-- handle_ack (tftp.cpp lines 206-226): reject non-read sessions with
Unknown TID; on an ack matching the current block, prepare the next DATA
when the previous one was full, otherwise close the file; any other ack is
ignored. -/
def handle_ack (ackBlock : Nat) (st : State) : Nat × State :=
  if st.opc ≠ RRQ then (UNKNOWN_TID, st)
  else if DATAMSG_MAXLEN ≤ st.buffer.length ∧ ackBlock = st.block_num then
    (0, send_next st)
  else if ackBlock = st.block_num then (0, { st with fileOpen := false })
  else (0, st)

/-- size_t modulus. -/
def U64 : Nat := 2 ^ 64

/-- The unsigned length update len -= sizeof(*data) in handle_data
(tftp.cpp line 249): subtraction of 4 modulo 2 ^ 64. -/
def computed_write_len (len : Nat) : Nat := (len + (U64 - 4)) % U64

/-- Per-session write-transfer state: operation, last accepted block, mode
(never consulted by handle_data), the bytes written to the staging file,
whether the stream is still open, and whether the staging file has been
renamed onto the target. -/
structure WState where
  opc : Nat := 0
  block_num : Nat := 0
  mode : Nat := 0
  fileData : List Nat := []
  fileOpen : Bool := true
  committed : Bool := false
deriving Repr, DecidableEq

/-- The big-endian 16-bit field at offset i of a frame (ntohs of the bytes
at i and i + 1). -/
def ntohs_at (frame : List Nat) (i : Nat) : Nat :=
  frame.getD i 0 * 256 + frame.getD (i + 1) 0

/-- handle_data (tftp.cpp lines 228-269).  frame is the received datagram
(4-byte header plus payload) and len its length as passed by the caller;
the code computes the write length as len - 4 with unsigned wrap-around and
writes that many bytes starting at the payload pointer.  Reading past the
end of the frame is undefined behaviour in the source; the model truncates
at the end of the frame.  The stream write and the commit rename can fail
in the source; their outcomes are the writeFails and renameFails oracles. -/
def handle_data (frame : List Nat) (len : Nat) (writeFails renameFails : Bool)
    (st : WState) : Nat × WState :=
  if st.opc ≠ WRQ then (UNKNOWN_TID, st)
  else
    let next := (st.block_num + 1) % 2 ^ 16
    if ntohs_at frame 2 ≠ next then (0, st)
    else
      let wlen := computed_write_len len
      let st1 := { st with
        block_num := next
        fileData := st.fileData ++ (frame.drop 4).take wlen }
      if writeFails then (DISK_FULL, st1)
      else if wlen < DATALEN then
        let st2 := { st1 with fileOpen := false }
        if renameFails then (ACCESS_VIOLATION, st2)
        else (0, { st2 with committed := true })
      else (0, st1)

/-- Outcome classes of the staging call filesystem::tmpfile_from as
handle_request distinguishes them: an error code comparing equal to
no_such_file_or_directory, or any other error. -/
inductive StageErr where
  | enoent
  | other
deriving Repr, DecidableEq

/-- handle_request's return value (tftp.cpp lines 150-198) as a function of
the request opcode, the decoded mode, and the staging outcome (none on
success).  DATA and ACK opcodes and mode 0 are rejected as Illegal
operation, as is a mail-mode RRQ; a no_such_file_or_directory staging
failure yields No such user on a mail-mode WRQ and File not found
otherwise; any other staging failure yields Access violation; on success
the function returns send_next's result for an RRQ (0 absent a hard read
error, which the model does not represent) and 0 for a WRQ. -/
def handle_request (opc mode : Nat) (stage : Option StageErr) : Nat :=
  if opc = DATA ∨ opc = ACK ∨ mode = 0 then ILLEGAL_OPERATION
  else if opc = RRQ ∧ mode = MAIL then ILLEGAL_OPERATION
  else
    match stage with
    | some StageErr.enoent =>
      if opc = WRQ ∧ mode = MAIL then NO_SUCH_USER else FILE_NOT_FOUND
    | some StageErr.other => ACCESS_VIOLATION
    | none => 0

/-- What a firing of the RRQ retransmission timer does. -/
inductive TimerAction where
  | resend (packet : List Nat)
  | timedOut
deriving Repr, DecidableEq

/-- Retry budget (tftp_server.cpp line 443, MAX_RETRIES). -/
def MAX_RETRIES : Nat := 5

/-- The retransmission-timer callback of server::send_next
(tftp_server.cpp lines 440-449): the captured retry counter is compared
against MAX_RETRIES and post-incremented; past the budget the session emits
Timed Out and terminates, otherwise server::send resends the current
buffer, touching no session state. -/
def timer_fire (retries : Nat) (st : State) : TimerAction × Nat × State :=
  if MAX_RETRIES ≤ retries then (TimerAction.timedOut, retries + 1, st)
  else (TimerAction.resend (sentPacket st), retries + 1, st)

/-- The actions of n consecutive timer firings with no intervening ACK. -/
def firesFrom (retries : Nat) (st : State) : Nat → List TimerAction
  | 0 => []
  | n + 1 =>
    (timer_fire retries st).1 ::
      firesFrom (timer_fire retries st).2.1 (timer_fire retries st).2.2 n

/-- The byte values of the configured temp-file name prefix "tftp."
(filesystem.hpp). -/
def prefixBytes : List Nat := [116, 102, 116, 112, 46]

/-- The value of the process-global atomic uint16_t counter consumed by the
k-th call to tmpname (filesystem.cpp, count()++ starting from 0). -/
def counterVal (k : Nat) : Nat := k % 2 ^ 16

/-- The five decimal digits of the 5-digit zero-padded formatting
of n (std::format with a 05d specification, for n < 100000). -/
def pad5 (n : Nat) : List Nat :=
  [n / 10000 % 10, n / 1000 % 10, n / 100 % 10, n / 10 % 10, n % 10]

/-- The filename produced by the k-th call to tmpname
(filesystem.cpp lines 57-62): the prefix followed by the 5-digit
zero-padded decimal of the counter value, as bytes (digits offset by 48
into ASCII).  The directory part is the cached OS temp directory, shared
by every call. -/
def tmpnameFile (k : Nat) : List Nat :=
  prefixBytes ++ (pad5 (counterVal k)).map (fun d => d + 48)

/-- One adjacency constraint of canonical NVT-ASCII output: byte c may
directly follow byte prev (none when c is the first byte) when a line feed
is immediately preceded by a carriage return, a 0 byte is immediately
preceded by a carriage return, and a carriage return is immediately
followed by a line feed or a 0 byte. -/
def stepOk (prev : Option Nat) (c : Nat) : Bool :=
  (!(c == 10) || prev == some 13) && (!(c == 0) || prev == some 13) &&
    (!(prev == some 13) || (c == 10 || c == 0))

/-- All adjacency constraints hold along s when the byte just before s is
prev. -/
def okFrom : Option Nat → List Nat → Bool
  | _, [] => true
  | prev, c :: rest => stepOk prev c && okFrom (some c) rest

/-- The last element of s, or p when s is empty. -/
def lastO : Option Nat → List Nat → Option Nat
  | p, [] => p
  | _, c :: rest => lastO (some c) rest

/-- The netascii canonicalization property of an emitted stream: every line
feed is immediately preceded by a carriage return, every 0 byte appears
only immediately after a carriage return, and every carriage return is
immediately followed by a line feed or a 0 byte (so the stream does not
end in a carriage return). -/
def netasciiOk (s : List Nat) : Bool :=
  okFrom none s && !(lastO none s == some 13)

/-- The NETASCII character step of insert_data restated on the emitted
region E, the buffer minus its 4-byte header; insChar on header ++ E
equals header ++ eStep E c (theorem insChar_header). -/
def eStep (E : List Nat) (c : Nat) : List Nat :=
  if c = 0 then E
  else if c = 10 then
    (if E.getLast? = some 0 then E.dropLast ++ [10] else E ++ [13, 10])
  else if c = 13 then E ++ [13, 0]
  else E ++ [c]

/-- The chunked netascii run of send_next iterations: each step feeds one
file chunk through insert_data into a buffer holding the DATA header and
the carry left from the previous packet, emits the first 512 bytes after
the header as the DATA payload, and moves the bytes after offset 4 + 512
to the head of the next packet; the value is the concatenation of all
emitted payloads (the final chunk's remainder drains through further
steps with empty chunks). -/
def chunkedRun (blk : Nat) (E : List Nat) : List (List Nat) → List Nat
  | [] => E
  | c :: cs =>
    let nb := (blk + 1) % 2 ^ 16
    let buf := insert_data (mkHeader nb ++ E) c NETASCII
    (buf.drop 4).take DATALEN ++ chunkedRun nb ((buf.drop 4).drop DATALEN) cs

/-- C8: with no intervening ACK, each of the first 5 timer firings resends
the current DATA packet unchanged (the session, in particular its block
number, is untouched), and the 6th firing emits Timed Out; exactly 5
retransmissions precede the timeout. -/
theorem retry_budget (st : State) :
    firesFrom 0 st 6 =
      [TimerAction.resend (sentPacket st), TimerAction.resend (sentPacket st),
       TimerAction.resend (sentPacket st), TimerAction.resend (sentPacket st),
       TimerAction.resend (sentPacket st), TimerAction.timedOut] ∧
    (∀ r, (timer_fire r st).2.2.block_num = st.block_num ∧
      (timer_fire r st).2.2.buffer = st.buffer) := by
  constructor
  · simp [firesFrom, timer_fire, MAX_RETRIES]
  · intro r
    unfold timer_fire
    split <;> exact ⟨rfl, rfl⟩

/-- C5 counterexample: handle_request applied to opcode ERROR = 5 (which is
outside {RRQ, WRQ}) with mode octet and a successful staging outcome
returns 0, not Illegal operation, refuting the claimed equivalence. -/
theorem handle_request_illegal_cex :
    handle_request ERROR OCTET none = 0 ∧
    ¬(ERROR = RRQ ∨ ERROR = WRQ) ∧
    (0 : Nat) ≠ ILLEGAL_OPERATION := by
  decide

/-- C5 amended: on a fresh session, handle_request returns Illegal
operation exactly when the opcode is DATA or ACK, or the decoded mode is 0,
or the opcode is RRQ with mode mail; opcodes outside {RRQ, WRQ, DATA, ACK}
are not rejected by this check. -/
theorem handle_request_illegal_iff (opc mode : Nat) (stage : Option StageErr) :
    handle_request opc mode stage = ILLEGAL_OPERATION ↔
      (opc = DATA ∨ opc = ACK ∨ mode = 0 ∨ (opc = RRQ ∧ mode = MAIL)) := by
  unfold handle_request
  rcases stage with _ | e
  · dsimp only
    split_ifs with h1 h2
    · exact iff_of_true rfl (by tauto)
    · exact iff_of_true rfl (by tauto)
    · exact iff_of_false (by decide) (by tauto)
  · cases e
    · dsimp only
      split_ifs with h1 h2 h3
      · exact iff_of_true rfl (by tauto)
      · exact iff_of_true rfl (by tauto)
      · exact iff_of_false (by decide) (by tauto)
      · exact iff_of_false (by decide) (by tauto)
    · dsimp only
      split_ifs with h1 h2
      · exact iff_of_true rfl (by tauto)
      · exact iff_of_true rfl (by tauto)
      · exact iff_of_false (by decide) (by tauto)

/-- C6 counterexample: a non-mail WRQ whose staging fails with
no_such_file_or_directory is answered with File not found, not with the
Access violation the claim assigns to it. -/
theorem stage_err_map_cex :
    handle_request WRQ OCTET (some StageErr.enoent) = FILE_NOT_FOUND ∧
    FILE_NOT_FOUND ≠ ACCESS_VIOLATION := by
  decide

/-- C6 amended: past the opcode and mode checks, a
no_such_file_or_directory staging failure maps to No such user on a
mail-mode WRQ and to File not found on every other request (RRQ or
non-mail WRQ alike), while every other staging failure maps to Access
violation. -/
theorem stage_err_map (opc mode : Nat)
    (h1 : ¬(opc = DATA ∨ opc = ACK ∨ mode = 0))
    (h2 : ¬(opc = RRQ ∧ mode = MAIL)) :
    handle_request opc mode (some StageErr.enoent) =
      (if opc = WRQ ∧ mode = MAIL then NO_SUCH_USER else FILE_NOT_FOUND) ∧
    handle_request opc mode (some StageErr.other) = ACCESS_VIOLATION := by
  unfold handle_request
  simp only [if_neg h1, if_neg h2]
  simp

/-- C6 witness: the amended mapping evaluated on a mail-mode WRQ with a
missing directory. -/
theorem stage_err_map_witness :
    handle_request WRQ MAIL (some StageErr.enoent) = NO_SUCH_USER ∧
    handle_request WRQ MAIL (some StageErr.other) = ACCESS_VIOLATION := by
  have h := stage_err_map WRQ MAIL (by decide) (by decide)
  simpa using h

/-- C9 counterexample: the temp-name counter is a uint16_t, so call 0 and
call 65536 produce the same filename even though they are distinct calls;
uniqueness does not hold for an unbounded number of calls. -/
theorem tmpname_wrap_cex :
    tmpnameFile 0 = tmpnameFile 65536 ∧ (0 : Nat) ≠ 65536 := by
  decide

/-- C9 amended: every call returns the prefix "tftp." followed by the
5-digit zero-padded decimal of the 16-bit counter, which increments by one
modulo 2 ^ 16 per call; two distinct calls return distinct filenames as
long as they are fewer than 2 ^ 16 calls apart (uniqueness holds only up
to counter wrap-around). -/
theorem tmpname_window_unique :
    (∀ k, counterVal (k + 1) = (counterVal k + 1) % 2 ^ 16) ∧
    (∀ k, (pad5 (counterVal k)).length = 5 ∧
      ∀ d ∈ pad5 (counterVal k), d < 10) ∧
    (∀ i j, i < j → j - i < 2 ^ 16 → tmpnameFile i ≠ tmpnameFile j) := by
  refine ⟨?_, ?_, ?_⟩
  · intro k
    simp only [counterVal]
    omega
  · intro k
    refine ⟨rfl, ?_⟩
    intro d hd
    simp only [pad5, List.mem_cons, List.mem_singleton, List.not_mem_nil,
      or_false] at hd
    rcases hd with h | h | h | h | h <;> omega
  · intro i j hij hw heq
    simp only [tmpnameFile, prefixBytes, pad5, counterVal, List.map_cons,
      List.map_nil, List.cons_append, List.nil_append, List.cons.injEq,
      and_true, true_and] at heq
    omega

/-- C9 witness: the amended uniqueness applied to the first two calls. -/
theorem tmpname_window_unique_witness :
    tmpnameFile 0 ≠ tmpnameFile 1 := by
  exact tmpname_window_unique.2.2 0 1 (by decide) (by decide)

/-- C4: handle_ack returns Unknown TID on a session whose operation is not
RRQ; on an ack matching the current block it calls send_next (incrementing
the block modulo 2 ^ 16) when the staged buffer holds at least 4 + 512
bytes, and closes the file when the buffer is shorter; any other ack block
is a no-op returning 0. -/
theorem handle_ack_spec (st : State) (ab : Nat) :
    (st.opc ≠ RRQ → handle_ack ab st = (UNKNOWN_TID, st)) ∧
    (st.opc = RRQ → ab = st.block_num → DATAMSG_MAXLEN ≤ st.buffer.length →
      handle_ack ab st = (0, send_next st) ∧
      (send_next st).block_num = (st.block_num + 1) % 2 ^ 16) ∧
    (st.opc = RRQ → ab = st.block_num → st.buffer.length < DATAMSG_MAXLEN →
      handle_ack ab st = (0, { st with fileOpen := false })) ∧
    (st.opc = RRQ → ab ≠ st.block_num → handle_ack ab st = (0, st)) := by
  refine ⟨?_, ?_, ?_, ?_⟩
  · intro h
    simp [handle_ack, h]
  · intro h hb hl
    refine ⟨?_, rfl⟩
    simp [handle_ack, h, hb, hl]
  · intro h hb hl
    have hn : ¬DATAMSG_MAXLEN ≤ st.buffer.length := by omega
    simp [handle_ack, h, hn, hb]
  · intro h hb
    simp [handle_ack, h, hb]

/-- C4 witness: the Unknown TID branch on a write session, and the no-op
branch on a read session with a non-matching ack block. -/
theorem handle_ack_spec_witness :
    handle_ack 0 { opc := 2 } = (UNKNOWN_TID, { opc := 2 }) ∧
    handle_ack 3 { opc := 1 } = (0, { opc := 1 }) := by
  constructor
  · exact (handle_ack_spec { opc := 2 } 0).1 (by decide)
  · exact (handle_ack_spec { opc := 1 } 3).2.2.2 rfl (by decide)

/-- C3: on a write session, a DATA packet carrying the expected block
number has its payload appended verbatim to the staging file (for every
mode) and advances the block number; a payload shorter than 512 bytes
additionally closes the file and commits the rename, failing with Access
violation when the rename fails, and a failed write yields Disk full; any
other block number returns 0 and changes nothing. -/
theorem handle_data_spec (st : WState) (db : Nat) (pl : List Nat)
    (wf rf : Bool) (hopc : st.opc = WRQ) (hdb : db < 2 ^ 16)
    (hpl : pl.length < U64 - 4) :
    (db = (st.block_num + 1) % 2 ^ 16 →
      (handle_data (mkHeader db ++ pl) (4 + pl.length) wf rf st).2.fileData
          = st.fileData ++ pl ∧
      (handle_data (mkHeader db ++ pl) (4 + pl.length) wf rf st).2.block_num
          = (st.block_num + 1) % 2 ^ 16 ∧
      (handle_data (mkHeader db ++ pl) (4 + pl.length) wf rf st).2.mode
          = st.mode ∧
      (wf = true →
        (handle_data (mkHeader db ++ pl) (4 + pl.length) wf rf st).1
          = DISK_FULL) ∧
      (wf = false → pl.length < DATALEN →
        (handle_data (mkHeader db ++ pl) (4 + pl.length) wf rf st).2.fileOpen
            = false ∧
        (rf = true →
          (handle_data (mkHeader db ++ pl) (4 + pl.length) wf rf st).1
            = ACCESS_VIOLATION) ∧
        (rf = false →
          (handle_data (mkHeader db ++ pl) (4 + pl.length) wf rf st).1 = 0 ∧
          (handle_data (mkHeader db ++ pl) (4 + pl.length) wf rf st).2.committed
            = true)) ∧
      (wf = false → DATALEN ≤ pl.length →
        (handle_data (mkHeader db ++ pl) (4 + pl.length) wf rf st).1 = 0 ∧
        (handle_data (mkHeader db ++ pl) (4 + pl.length) wf rf st).2.fileOpen
            = st.fileOpen ∧
        (handle_data (mkHeader db ++ pl) (4 + pl.length) wf rf st).2.committed
            = st.committed)) ∧
    (db ≠ (st.block_num + 1) % 2 ^ 16 →
      handle_data (mkHeader db ++ pl) (4 + pl.length) wf rf st = (0, st)) := by
  have hhd : ntohs_at (mkHeader db ++ pl) 2 = db := by
    simp [ntohs_at, mkHeader, List.getD]
    omega
  have hwl : computed_write_len (4 + pl.length) = pl.length := by
    simp only [computed_write_len, U64] at *
    omega
  have htk : ((mkHeader db ++ pl).drop 4).take pl.length = pl := by
    have hdrop : (mkHeader db ++ pl).drop 4 = pl := by
      simp [mkHeader]
    rw [hdrop]
    exact List.take_of_length_le (le_refl _)
  constructor
  · intro hb
    have hcond : ntohs_at (mkHeader db ++ pl) 2 = (st.block_num + 1) % 2 ^ 16 :=
      hhd.trans hb
    cases wf <;> cases rf <;> by_cases hlen : pl.length < DATALEN <;>
      simp [handle_data, hopc, hcond, hwl, htk, hlen]
  · intro hb
    have hne : ¬ntohs_at (mkHeader db ++ pl) 2 = (st.block_num + 1) % 65536 := by
      rw [hhd]
      simpa using hb
    simp [handle_data, hopc, hne]

/-- C3 witness: a one-byte DATA packet with the expected block number on a
fresh write session, with write and rename succeeding. -/
theorem handle_data_spec_witness :
    (handle_data (mkHeader 1 ++ [9]) (4 + [9].length) false false
        { opc := 2, block_num := 0, mode := 1 }).2.fileData = [9] ∧
    (handle_data (mkHeader 1 ++ [9]) (4 + [9].length) false false
        { opc := 2, block_num := 0, mode := 1 }).1 = 0 ∧
    (handle_data (mkHeader 1 ++ [9]) (4 + [9].length) false false
        { opc := 2, block_num := 0, mode := 1 }).2.committed = true := by
  have h := (handle_data_spec { opc := 2, block_num := 0, mode := 1 } 1 [9]
    false false rfl (by decide) (by decide)).1 (by decide)
  refine ⟨?_, ?_, ?_⟩
  · simpa using h.1
  · exact ((h.2.2.2.2.1 rfl (by decide)).2.2 rfl).1
  · exact ((h.2.2.2.2.1 rfl (by decide)).2.2 rfl).2

/-- C10: handle_data never validates len; with the expected block number on
a write session, a frame of length len at least 4 has exactly len - 4
payload bytes written, while for len below 4 the unsigned update
len -= sizeof(*data) wraps modulo 2 ^ 64, producing a write length that is
not the payload length and exceeds DATALEN, and no error is returned: the
block number still advances. -/
theorem handle_data_len_wrap (frame : List Nat) (len : Nat) (st : WState)
    (hopc : st.opc = WRQ) (hsz : len < U64)
    (hblk : ntohs_at frame 2 = (st.block_num + 1) % 2 ^ 16) :
    (frame.length = len → 4 ≤ len →
      computed_write_len len = len - 4 ∧
      (handle_data frame len false false st).2.fileData
        = st.fileData ++ frame.drop 4 ∧
      (frame.drop 4).length = len - 4) ∧
    (len < 4 →
      computed_write_len len = U64 - (4 - len) ∧
      DATALEN < computed_write_len len ∧
      computed_write_len len ≠ len - 4 ∧
      (handle_data frame len false false st).1 = 0 ∧
      (handle_data frame len false false st).2.block_num
        = (st.block_num + 1) % 2 ^ 16) := by
  have hU : U64 = 18446744073709551616 := by norm_num [U64]
  constructor
  · intro hlen h4
    have hwl : computed_write_len len = len - 4 := by
      simp only [computed_write_len, hU] at *
      omega
    have htk : (frame.drop 4).take (computed_write_len len) = frame.drop 4 := by
      rw [hwl]
      exact List.take_of_length_le (by simp [hlen])
    refine ⟨hwl, ?_, by simp [hlen]⟩
    by_cases hs : computed_write_len len < DATALEN <;>
      simp [handle_data, hopc, hblk, htk, hs]
  · intro h4
    have hwl : computed_write_len len = U64 - (4 - len) := by
      simp only [computed_write_len, hU] at *
      omega
    have hgt : DATALEN < computed_write_len len := by
      rw [hwl, hU]
      simp only [DATALEN]
      omega
    have hns : ¬(computed_write_len len < DATALEN) := by omega
    refine ⟨hwl, hgt, by omega, ?_, ?_⟩ <;>
      simp [handle_data, hopc, hblk, hns]

/-- In a non-netascii mode a buffer of at most DATAMSG_MAXLEN bytes leaves
no carry, so send_next reduces to: header, then the next 512 file bytes
verbatim. -/
theorem send_next_octet (st : State) (hm : st.mode ≠ NETASCII)
    (hb : st.buffer.length ≤ DATAMSG_MAXLEN) :
    send_next st = { st with
      buffer := mkHeader ((st.block_num + 1) % 2 ^ 16) ++ st.fileRem.take DATALEN
      block_num := (st.block_num + 1) % 2 ^ 16
      fileRem := st.fileRem.drop DATALEN } := by
  have hpad : (if st.buffer.length < 4 then
      st.buffer ++ List.replicate (4 - st.buffer.length) 0
    else st.buffer).length ≤ DATAMSG_MAXLEN := by
    split
    · simp only [List.length_append, List.length_replicate, DATAMSG_MAXLEN,
        DATALEN] at *
      omega
    · exact hb
  have hnc : ¬DATAMSG_MAXLEN < (if st.buffer.length < 4 then
      st.buffer ++ List.replicate (4 - st.buffer.length) 0
    else st.buffer).length := by omega
  simp only [send_next, if_neg hnc, List.append_nil, insert_data, if_pos hm]
  have hrs : DATAMSG_MAXLEN - (mkHeader ((st.block_num + 1) % 2 ^ 16)).length
      = DATALEN := rfl
  rw [hrs]

/-- A buffer of the form header plus at most 512 payload bytes yields that
payload as the sent DATA payload. -/
theorem payload_eq (st : State) (b : Nat) (x : List Nat)
    (hbuf : st.buffer = mkHeader b ++ x) (hx : x.length ≤ DATALEN) :
    payload st = x := by
  have hlen : (mkHeader b ++ x).length ≤ DATAMSG_MAXLEN := by
    simp only [List.length_append, mkHeader, List.length_cons, List.length_nil,
      DATAMSG_MAXLEN] at *
    omega
  simp only [payload, sentPacket, hbuf, List.take_of_length_le hlen]
  simp [mkHeader]

/-- The octet-mode driver loop: over any fuel strictly covering the file,
the emitted payloads concatenate to the remaining file bytes, and the last
payload is the final partial chunk. -/
theorem rrqRun_octet : ∀ (fuel : Nat) (st : State), st.mode ≠ NETASCII →
    st.buffer.length ≤ DATAMSG_MAXLEN →
    st.fileRem.length < DATALEN * fuel →
    (rrqRun st fuel).flatten = st.fileRem ∧
    (rrqRun st fuel).getLast?
      = some (st.fileRem.drop (DATALEN * (st.fileRem.length / DATALEN))) := by
  intro fuel
  induction fuel with
  | zero =>
    intro st hm hb hf
    simp at hf
  | succ n ih =>
    intro st hm hb hf
    have hsn := send_next_octet st hm hb
    have hpay : payload (send_next st) = st.fileRem.take DATALEN := by
      refine payload_eq _ ((st.block_num + 1) % 2 ^ 16) _ (by rw [hsn]) ?_
      rw [List.length_take]
      exact Nat.min_le_left _ _
    by_cases hshort : st.fileRem.length < DATALEN
    · have htake : st.fileRem.take DATALEN = st.fileRem :=
        List.take_of_length_le (le_of_lt hshort)
      have hcond : (payload (send_next st)).length < DATALEN := by
        rw [hpay, htake]
        exact hshort
      have hq : st.fileRem.length / DATALEN = 0 := Nat.div_eq_of_lt hshort
      rw [rrqRun, if_pos hcond, hpay, htake]
      refine ⟨by simp, ?_⟩
      rw [hq, Nat.mul_zero, List.drop_zero]
      exact List.getLast?_singleton _
    · have hfull : (payload (send_next st)).length = DATALEN := by
        rw [hpay, List.length_take]
        omega
      have hcond : ¬(payload (send_next st)).length < DATALEN := by omega
      have hmode : (send_next st).mode = st.mode := by rw [hsn]
      have hbuf1 : (send_next st).buffer.length ≤ DATAMSG_MAXLEN := by
        rw [hsn]
        simp only [List.length_append, mkHeader, List.length_cons,
          List.length_nil, List.length_take, DATAMSG_MAXLEN]
        omega
      have hrem1 : (send_next st).fileRem = st.fileRem.drop DATALEN := by
        rw [hsn]
      have hfuel1 : (send_next st).fileRem.length < DATALEN * n := by
        rw [hrem1, List.length_drop]
        simp only [DATALEN] at *
        omega
      obtain ⟨ihf, ihl⟩ := ih (send_next st) (by rw [hmode]; exact hm) hbuf1 hfuel1
      rw [rrqRun, if_neg hcond]
      constructor
      · rw [List.flatten_cons, ihf, hrem1, hpay, List.take_append_drop]
      · rcases hrest : rrqRun (send_next st) n with _ | ⟨p, ps⟩
        · rw [hrest] at ihl
          simp at ihl
        · rw [hrest] at ihl
          rw [List.getLast?_cons_cons, ihl, hrem1, List.drop_drop]
          have harith : DATALEN
              + DATALEN * ((st.fileRem.drop DATALEN).length / DATALEN)
              = DATALEN * (st.fileRem.length / DATALEN) := by
            rw [List.length_drop]
            simp only [DATALEN] at *
            omega
          rw [harith]

/-- C1: an octet-mode read transfer of a file B, driven by iterating
send_next from block 0 and concatenating the DATA payloads
buffer[4..min(len, 516)], delivers exactly B; the last payload has length
B.length mod 512, and it is the empty payload when B.length is a positive
multiple of 512. -/
theorem rrq_octet_roundtrip (B : List Nat) :
    (rrqRun (initState B OCTET) (B.length / DATALEN + 1)).flatten = B ∧
    ∃ lastp,
      (rrqRun (initState B OCTET) (B.length / DATALEN + 1)).getLast?
        = some lastp ∧
      lastp.length = B.length % DATALEN ∧
      (0 < B.length → B.length % DATALEN = 0 → lastp = []) := by
  obtain ⟨hf, hl⟩ := rrqRun_octet (B.length / DATALEN + 1) (initState B OCTET)
    (by simp [initState, OCTET, NETASCII])
    (by simp [initState])
    (by simp only [initState, DATALEN]; omega)
  simp only [initState] at hf hl
  refine ⟨hf, _, hl, ?_, ?_⟩
  · rw [List.length_drop]
    simp only [DATALEN]
    omega
  · intro hpos hmod
    have he : DATALEN * (B.length / DATALEN) = B.length := by
      simp only [DATALEN] at hmod ⊢
      omega
    rw [he, List.drop_length]

/-- C1 witness: a 512-byte file yields a final zero-byte DATA payload. -/
theorem rrq_octet_roundtrip_witness :
    (rrqRun (initState (List.replicate 512 7) OCTET) 2).getLast? = some [] := by
  obtain ⟨hf, lastp, hl, hlen, hz⟩ := rrq_octet_roundtrip (List.replicate 512 7)
  have hfuel : (List.replicate (512 : Nat) 7).length / DATALEN + 1 = 2 := by
    rw [List.length_replicate]
    decide
  rw [← hfuel, hl,
    hz (by rw [List.length_replicate]; decide) (by rw [List.length_replicate]; decide)]

/-- C10 witness: a 3-byte truncated frame (len = 3) whose block field still
matches: the computed write length wraps to 2 ^ 64 - 1 and the packet is
processed without any error. -/
theorem handle_data_len_wrap_witness :
    computed_write_len 3 = U64 - 1 ∧
    (handle_data [0, 3, 0, 1] 3 false false { opc := 2, block_num := 0 }).1
      = 0 := by
  have h := (handle_data_len_wrap [0, 3, 0, 1] 3 { opc := 2, block_num := 0 }
    rfl (by decide) (by decide)).2 (by decide)
  exact ⟨by simpa using h.1, h.2.2.2.1⟩

/-- lastO distributes over append. -/
theorem lastO_append (p : Option Nat) (s t : List Nat) :
    lastO p (s ++ t) = lastO (lastO p s) t := by
  induction s generalizing p with
  | nil => rfl
  | cons c s ih => exact ih (some c)

/-- okFrom splits over append at the last byte of the first part. -/
theorem okFrom_append (p : Option Nat) (s t : List Nat) :
    okFrom p (s ++ t) = (okFrom p s && okFrom (lastO p s) t) := by
  induction s generalizing p with
  | nil => simp [okFrom, lastO]
  | cons c s ih =>
    show (stepOk p c && okFrom (some c) (s ++ t))
        = ((stepOk p c && okFrom (some c) s) && okFrom (lastO (some c) s) t)
    rw [ih (some c), Bool.and_assoc]

/-- The netascii property of a split stream, in terms of the junction
byte. -/
theorem netasciiOk_append (acc E : List Nat) :
    netasciiOk (acc ++ E) = true ↔
      (okFrom none acc = true ∧ okFrom (lastO none acc) E = true ∧
        lastO (lastO none acc) E ≠ some 13) := by
  simp only [netasciiOk, okFrom_append, lastO_append, Bool.and_eq_true,
    Bool.not_eq_eq_eq_not, Bool.not_true, beq_eq_false_iff_ne, ne_eq]
  tauto

/-- insChar acts only on the part of the buffer after a 4-byte header. -/
theorem insChar_header (h E : List Nat) (c : Nat) (hh : h.length = 4) :
    insChar (h ++ E) c = h ++ eStep E c := by
  unfold insChar eStep
  by_cases h0 : c = 0
  · simp [h0]
  · by_cases h10 : c = 10
    · by_cases hE : E = []
      · subst hE
        have hguard : ¬4 < h.length := by omega
        simp [h0, h10, hguard]
      · by_cases hL : E.getLast? = some 0
        · have hg : 4 < (h ++ E).length ∧ (h ++ E).getLast? = some 0 := by
            constructor
            · simp only [List.length_append, hh]
              have := List.length_pos.mpr hE
              omega
            · rw [List.getLast?_append_of_ne_nil _ hE]
              exact hL
          simp only [if_neg h0, if_pos h10, if_pos hg, if_pos hL,
            List.dropLast_append_of_ne_nil _ hE, List.append_assoc]
        · simp [h0, h10, hL, List.getLast?_append_of_ne_nil _ hE]
    · by_cases h13 : c = 13
      · simp [h0, h10, h13]
      · simp [h0, h10, h13]

/-- insert_data in NETASCII mode acts only after the 4-byte header, as a
left fold of eStep. -/
theorem insert_data_header (h E bufc : List Nat) (hh : h.length = 4) :
    insert_data (h ++ E) bufc NETASCII = h ++ bufc.foldl eStep E := by
  have hfold : ∀ (cs : List Nat) (E : List Nat),
      cs.foldl insChar (h ++ E) = h ++ cs.foldl eStep E := by
    intro cs
    induction cs with
    | nil => intro E; rfl
    | cons c cs ih =>
      intro E
      rw [List.foldl_cons, List.foldl_cons, insChar_header h E c hh, ih]
  simp [insert_data, hfold bufc E]

/-- One eStep preserves the adjacency constraints and never leaves a
trailing carriage return. -/
theorem eStep_ok (p : Option Nat) (E : List Nat) (c : Nat)
    (h1 : okFrom p E = true) (h2 : lastO p E ≠ some 13) :
    okFrom p (eStep E c) = true ∧ lastO p (eStep E c) ≠ some 13 := by
  unfold eStep
  by_cases h0 : c = 0
  · simp only [if_pos h0]
    exact ⟨h1, h2⟩
  rw [if_neg h0]
  by_cases h10 : c = 10
  · rw [if_pos h10]
    by_cases hL : E.getLast? = some 0
    · rw [if_pos hL]
      obtain ⟨E0, rfl⟩ := List.getLast?_eq_some_iff.mp hL
      rw [okFrom_append] at h1
      simp only [Bool.and_eq_true] at h1
      have h13' : lastO p E0 = some 13 := by
        have hs := h1.2
        simp [okFrom, stepOk] at hs
        exact hs
      rw [List.dropLast_concat]
      constructor
      · rw [okFrom_append]
        simp [h1.1, okFrom, stepOk, h13']
      · rw [lastO_append, h13']
        simp [lastO]
    · rw [if_neg hL]
      constructor
      · rw [okFrom_append]
        simp [h1, okFrom, stepOk, h2]
      · rw [lastO_append]
        simp [lastO]
  rw [if_neg h10]
  by_cases h13 : c = 13
  · rw [if_pos h13]
    constructor
    · rw [okFrom_append]
      simp [h1, okFrom, stepOk, h2]
    · rw [lastO_append]
      simp [lastO]
  · rw [if_neg h13]
    constructor
    · rw [okFrom_append]
      simp [h1, okFrom, stepOk, h0, h10, h13, h2]
    · rw [lastO_append]
      simp [lastO, h13]

/-- Folding eStep over any chunk preserves the adjacency constraints. -/
theorem netFold_ok (p : Option Nat) :
    ∀ (bufc E : List Nat),
      okFrom p E = true → lastO p E ≠ some 13 →
      okFrom p (bufc.foldl eStep E) = true ∧
        lastO p (bufc.foldl eStep E) ≠ some 13 := by
  intro bufc
  induction bufc with
  | nil =>
    intro E h1 h2
    exact ⟨h1, h2⟩
  | cons c cs ih =>
    intro E h1 h2
    obtain ⟨h1a, h2a⟩ := eStep_ok p E c h1 h2
    exact ih (eStep E c) h1a h2a

/-- Feeding a chunk into the emitted region preserves the netascii
property of the whole stream, sent prefix included. -/
theorem chunk_preserve (acc E bufc : List Nat)
    (h : netasciiOk (acc ++ E) = true) :
    netasciiOk (acc ++ bufc.foldl eStep E) = true := by
  rw [netasciiOk_append] at h ⊢
  obtain ⟨ha, h1, h2⟩ := h
  obtain ⟨h1a, h2a⟩ := netFold_ok (lastO none acc) bufc E h1 h2
  exact ⟨ha, h1a, h2a⟩

/-- The chunked run preserves the netascii property of the whole stream. -/
theorem chunkedRun_ok (cs : List (List Nat)) :
    ∀ (blk : Nat) (acc E : List Nat), netasciiOk (acc ++ E) = true →
      netasciiOk (acc ++ chunkedRun blk E cs) = true := by
  induction cs with
  | nil =>
    intro blk acc E h
    exact h
  | cons c cs ih =>
    intro blk acc E h
    simp only [chunkedRun]
    have hhd : (mkHeader ((blk + 1) % 2 ^ 16)).length = 4 := rfl
    have hbr : insert_data (mkHeader ((blk + 1) % 2 ^ 16) ++ E) c NETASCII
        = mkHeader ((blk + 1) % 2 ^ 16) ++ c.foldl eStep E :=
      insert_data_header _ _ _ hhd
    have hdrop :
        (insert_data (mkHeader ((blk + 1) % 2 ^ 16) ++ E) c NETASCII).drop 4
          = c.foldl eStep E := by
      rw [hbr, ← hhd]
      exact List.drop_left _ _
    rw [hdrop, ← List.append_assoc]
    refine ih ((blk + 1) % 2 ^ 16) (acc ++ (c.foldl eStep E).take DATALEN)
      ((c.foldl eStep E).drop DATALEN) ?_
    rw [List.append_assoc, List.take_append_drop]
    exact chunk_preserve acc E c h

/-- C2: the stream emitted by the netascii transcoder, starting from a
buffer holding only the 4-byte DATA header, satisfies the canonicalization
property (every line feed preceded by a carriage return, every carriage
return followed by a line feed or a 0 byte, a 0 byte only after a carriage
return), and so does the concatenation of successive DATA payloads when the
carry beyond offset 4 + 512 is moved to the head of the next packet. -/
theorem netascii_canonical (b : Nat) (input : List Nat)
    (chunks : List (List Nat)) :
    netasciiOk ((insert_data (mkHeader b) input NETASCII).drop 4) = true ∧
    netasciiOk (chunkedRun 0 [] chunks) = true := by
  constructor
  · have hhd : (mkHeader b).length = 4 := rfl
    have hbr : insert_data (mkHeader b ++ []) input NETASCII
        = mkHeader b ++ input.foldl eStep [] := insert_data_header _ _ _ hhd
    rw [show mkHeader b = mkHeader b ++ [] from (List.append_nil _).symm, hbr,
      ← hhd, List.drop_left]
    have h := chunk_preserve [] [] input (by decide)
    simpa using h
  · have h := chunkedRun_ok chunks 0 [] [] (by decide)
    simpa using h

set_option maxRecDepth 10000 in
/-- C7 counterexample: in netascii mode the transcoder silently skips bare
0 bytes, so a file of 513 zero bytes yields a first DATA payload of 0
bytes (short, hence end-of-transfer to the peer) while one file byte is
still unread. -/
theorem short_data_not_eof_cex :
    (payload (send_next (initState (List.replicate 513 0) NETASCII))).length
      < DATALEN ∧
    (send_next (initState (List.replicate 513 0) NETASCII)).fileRem ≠ [] := by
  decide

/-- C7 amended: in the non-netascii modes (octet and mail), a successful
prepare_next_data produces a DATA payload shorter than 512 bytes only when
the file has been exhausted; in netascii mode a short payload can also be
produced with file bytes remaining, because skipped 0 bytes deflate the
block (see the counterexample). -/
theorem short_data_only_at_eof (st : State) (hm : st.mode ≠ NETASCII)
    (hb : st.buffer.length ≤ DATAMSG_MAXLEN + DATALEN)
    (hshort : (payload (send_next st)).length < DATALEN) :
    (send_next st).fileRem = [] := by
  simp only [send_next, insert_data, if_pos hm, payload, sentPacket] at hshort ⊢
  set buf0 := (if st.buffer.length < 4 then
      st.buffer ++ List.replicate (4 - st.buffer.length) 0
    else st.buffer) with hbuf0
  have hbuf0len : buf0.length ≤ DATAMSG_MAXLEN + DATALEN := by
    rw [hbuf0]
    split
    · rw [List.length_append, List.length_replicate]
      simp only [DATAMSG_MAXLEN, DATALEN]
      omega
    · exact hb
  set carry := (if DATAMSG_MAXLEN < buf0.length then buf0.drop DATAMSG_MAXLEN
    else ([] : List Nat)) with hcarry
  have hclen : carry.length ≤ DATALEN := by
    rw [hcarry]
    split
    · rw [List.length_drop]
      simp only [DATAMSG_MAXLEN, DATALEN] at *
      omega
    · simp [DATALEN]
  rw [List.drop_eq_nil_iff]
  simp only [List.length_drop, List.length_take, List.length_append, mkHeader,
    List.length_cons, List.length_nil] at hshort ⊢
  simp only [DATAMSG_MAXLEN, DATALEN] at *
  omega

/-- C7 witness: the amended statement on a one-byte octet-mode file, whose
only DATA payload is short and whose file is indeed exhausted. -/
theorem short_data_only_at_eof_witness :
    (send_next (initState [7] OCTET)).fileRem = [] := by
  exact short_data_only_at_eof (initState [7] OCTET) (by decide) (by decide)
    (by decide)

end TftpSpec
